import Mathlib

/-!
Verification of the session/turn orchestration core of the
InteractiveAvatarNextJSDemo repository.

The development shallowly embeds the TypeScript source:

* `deepClean` (useStreamingAvatarSession.ts) over a `JSValue` model of
  JavaScript objects;
* the session lifecycle state machine of `useStreamingAvatarSession`
  (`init` / `start` / the STREAM_READY handler / `stop`) as an event
  system with an executable `applyEvent` transition function;
* the listener registration lists of `start()` / `stop()` and the extra
  anonymous listeners registered by `startSessionV2`;
* the message-history reducer (`handleUserTalkingMessage`,
  `handleStreamingTalkingMessage`, `handleEndMessage`, `addTextMessage`);
* the trigger evaluation of `useVoiceChatLLMIntegration`;
* the sentence-aware chunk relay of `useLLMChat.sendToLLM` (buffering,
  the regex boundary scan, forced flush, final flush);
* `sendChunkToAvatar` with its per-chunk retry loop;
* `isRetryableError` and the attempt loop of `sendToLLM` with
  exponential backoff;
* the pre-flight quota gate of `startSessionV2`.

Strings are modelled as `List Char` where character-level scanning
matters; machine-irrelevant identifiers (session ids, tokens, media
streams) are modelled as `Nat`.
-/

/-! ## JavaScript values and `deepClean` (useStreamingAvatarSession.ts lines 20 to 39) -/

/-- A model of the JavaScript values `deepClean` can encounter:
`undefined`, `null`, booleans, numbers, strings, arrays and plain
objects (ordered key/value lists, as produced by `Object.entries`). -/
inductive JSValue where
  | undef
  | null
  | bool (b : Bool)
  | num (n : Int)
  | str (s : String)
  | arr (elems : List JSValue)
  | obj (fields : List (String × JSValue))

mutual

/-- Model of `deepClean`: `null`/`undefined` are returned unchanged,
arrays are mapped recursively, objects drop entries whose value is
`undefined` and recurse into the kept values, and every other value is
returned unchanged. -/
def deepClean : JSValue → JSValue
  | .undef => .undef
  | .null => .null
  | .bool b => .bool b
  | .num n => .num n
  | .str s => .str s
  | .arr es => .arr (deepCleanList es)
  | .obj fs => .obj (deepCleanFields fs)

/-- The `obj.map(deepClean)` part of `deepClean` on arrays. -/
def deepCleanList : List JSValue → List JSValue
  | [] => []
  | v :: vs => deepClean v :: deepCleanList vs

/-- The `Object.entries(obj).reduce` part of `deepClean`: entries with
value `undefined` are skipped, all other values are cleaned. -/
def deepCleanFields : List (String × JSValue) → List (String × JSValue)
  | [] => []
  | (k, v) :: fs =>
    match v with
    | .undef => deepCleanFields fs
    | w => (k, deepClean w) :: deepCleanFields fs

end

mutual

theorem deepClean_deepClean : (v : JSValue) → deepClean (deepClean v) = deepClean v
  | .undef => rfl
  | .null => rfl
  | .bool _ => rfl
  | .num _ => rfl
  | .str _ => rfl
  | .arr es => by simp [deepClean, deepCleanList_deepCleanList es]
  | .obj fs => by simp [deepClean, deepCleanFields_deepCleanFields fs]

theorem deepCleanList_deepCleanList : (vs : List JSValue) →
    deepCleanList (deepCleanList vs) = deepCleanList vs
  | [] => rfl
  | v :: vs => by simp [deepCleanList, deepClean_deepClean v, deepCleanList_deepCleanList vs]

theorem deepCleanFields_deepCleanFields : (fs : List (String × JSValue)) →
    deepCleanFields (deepCleanFields fs) = deepCleanFields fs
  | [] => rfl
  | (k, v) :: fs => by
    have hv := deepClean_deepClean v
    have hfs := deepCleanFields_deepCleanFields fs
    cases v <;> simp_all [deepCleanFields, deepClean]

end

mutual

/-- `noUndefKeys v = true` when no object nested anywhere inside `v`
(through objects and arrays) has a key bound to `undefined`. -/
def noUndefKeys : JSValue → Bool
  | .arr es => noUndefKeysList es
  | .obj fs => noUndefKeysFields fs
  | _ => true

def noUndefKeysList : List JSValue → Bool
  | [] => true
  | v :: vs => noUndefKeys v && noUndefKeysList vs

def noUndefKeysFields : List (String × JSValue) → Bool
  | [] => true
  | (_, v) :: fs =>
    (match v with
     | .undef => false
     | _ => true) && noUndefKeys v && noUndefKeysFields fs

end

mutual

theorem noUndefKeys_deepClean : (v : JSValue) → noUndefKeys (deepClean v) = true
  | .undef => rfl
  | .null => rfl
  | .bool _ => rfl
  | .num _ => rfl
  | .str _ => rfl
  | .arr es => by simp [deepClean, noUndefKeys, noUndefKeysList_deepCleanList es]
  | .obj fs => by simp [deepClean, noUndefKeys, noUndefKeysFields_deepCleanFields fs]

theorem noUndefKeysList_deepCleanList : (vs : List JSValue) →
    noUndefKeysList (deepCleanList vs) = true
  | [] => rfl
  | v :: vs => by
    simp [deepCleanList, noUndefKeysList, noUndefKeys_deepClean v,
      noUndefKeysList_deepCleanList vs]

theorem noUndefKeysFields_deepCleanFields : (fs : List (String × JSValue)) →
    noUndefKeysFields (deepCleanFields fs) = true
  | [] => rfl
  | (k, v) :: fs => by
    have hv := noUndefKeys_deepClean v
    have hfs := noUndefKeysFields_deepCleanFields fs
    cases v <;> simp_all [deepCleanFields, deepClean, noUndefKeys, noUndefKeysFields]

end

/-- A defined value that JavaScript treats as falsy, plus `null`: these
are exactly the bindings the specification says `deepClean` must keep. -/
def falsyDefinedAtom (v : JSValue) : Prop :=
  v = .null ∨ v = .bool false ∨ v = .num 0 ∨ v = .str ""

theorem deepClean_atom_id {v : JSValue} (h : falsyDefinedAtom v) : deepClean v = v := by
  rcases h with h | h | h | h <;> subst h <;> rfl

theorem deepCleanFields_mem_of_falsy :
    ∀ (fs : List (String × JSValue)) (k : String) (v : JSValue),
      (k, v) ∈ fs → falsyDefinedAtom v → (k, v) ∈ deepCleanFields fs := by
  intro fs
  induction fs with
  | nil => intro k v h _; cases h
  | cons hd tl ih =>
    intro k v hmem hfalsy
    obtain ⟨k0, v0⟩ := hd
    rcases List.mem_cons.mp hmem with heq | htl
    · rw [Prod.mk.injEq] at heq
      obtain ⟨hk, hv⟩ := heq
      subst hk
      subst hv
      rcases hfalsy with h | h | h | h <;> subst h <;> simp [deepCleanFields, deepClean]
    · have hmemtl := ih k v htl hfalsy
      cases v0 <;> simp only [deepCleanFields] <;>
        first
        | exact hmemtl
        | exact List.mem_cons_of_mem _ hmemtl

/-- Claim C6: `deepClean` is idempotent; its result contains no key
bound to `undefined` at any nesting depth; and object entries bound to
`null` or to falsy-but-defined values (`0`, the empty string, `false`)
are preserved unchanged (they reappear, with the same value, in the
fields of the cleaned object). -/
theorem deepClean_spec :
    (∀ v : JSValue, deepClean (deepClean v) = deepClean v) ∧
    (∀ v : JSValue, noUndefKeys (deepClean v) = true) ∧
    (∀ (fs : List (String × JSValue)) (k : String) (v : JSValue),
      (k, v) ∈ fs → falsyDefinedAtom v →
        ∃ fs2, deepClean (.obj fs) = .obj fs2 ∧ (k, v) ∈ fs2) :=
  ⟨deepClean_deepClean, noUndefKeys_deepClean, fun fs k v hmem hf =>
    ⟨deepCleanFields fs, by simp [deepClean], deepCleanFields_mem_of_falsy fs k v hmem hf⟩⟩

/-- Concrete instance of claim C6 at the object with fields
`a ↦ 0`, `b ↦ undefined`. -/
theorem deepClean_spec_witness :
    ∃ fs2, deepClean (.obj [("a", JSValue.num 0), ("b", JSValue.undef)]) = .obj fs2 ∧
      ("a", JSValue.num 0) ∈ fs2 :=
  deepClean_spec.2.2 [("a", JSValue.num 0), ("b", JSValue.undef)] "a" (JSValue.num 0)
    (by simp) (Or.inr (Or.inr (Or.inl rfl)))

/-! ## Session lifecycle state machine (useStreamingAvatarSession.ts) -/

/-- The session states of `StreamingAvatarSessionState` (types.ts). -/
inductive StreamingAvatarSessionState where
  | INACTIVE
  | CONNECTING
  | CONNECTED
deriving DecidableEq

/-- The context fields the session machine owns: `sessionState`,
`stream`, `sessionId`, `sessionToken` (context.tsx), plus whether
`avatarRef.current` is non-null.  Opaque values (tokens, ids, media
streams) are modelled as `Nat`. -/
structure SessionCtx where
  sessionState : StreamingAvatarSessionState
  stream : Option Nat
  sessionId : Option Nat
  sessionToken : Option Nat
  avatarInit : Bool
deriving DecidableEq

/-- The initial context of `StreamingAvatarProvider`: everything null,
state INACTIVE. -/
def initialSessionCtx : SessionCtx :=
  ⟨.INACTIVE, none, none, none, false⟩

/-- The events the session machine reacts to.

* `init token`: the hook `init` — constructs the avatar handle and
  stores the token (`setSessionToken(token)`).
* `startOk`: the synchronous prefix of `start()` — requires INACTIVE
  (otherwise `start` throws) and an existing avatar handle; sets
  CONNECTING and registers the listeners.
* `startTok token`: `start()` reached with no avatar handle but with a
  token — runs `init(token)` and then proceeds as `startOk`.
* `createOk sid`: the continuation of `await createStartAvatar`
  resolved with a response carrying a `session_id`, which is stored
  unconditionally — the source performs no state check there, so this
  event can also land after an intervening `stop()` (for example when
  STREAM_DISCONNECTED fires `stop` while the creation call is still in
  flight), leaving `sessionId` non-null in a stable INACTIVE state.
* `streamReady ms`: the `handleStream` listener — stores the media
  stream and sets CONNECTED.  It can only fire while the listeners are
  registered, that is, outside INACTIVE.
* `stop`: `stop()` — clears stream, sessionId and sessionToken, then
  sets INACTIVE.  It does not clear `avatarRef`. -/
inductive SessionEvent where
  | init (token : Nat)
  | startOk
  | startTok (token : Nat)
  | createOk (sid : Nat)
  | streamReady (ms : Nat)
  | stop

/-- One step of the session machine; `none` models an operation that
throws (`start` outside INACTIVE or without a handle) or an event that
cannot be delivered (no listener registered). -/
def applyEvent : SessionEvent → SessionCtx → Option SessionCtx
  | .init t, s => some { s with avatarInit := true, sessionToken := some t }
  | .startOk, s =>
      if s.sessionState = .INACTIVE ∧ s.avatarInit then
        some { s with sessionState := .CONNECTING }
      else none
  | .startTok t, s =>
      if s.sessionState = .INACTIVE then
        some { s with avatarInit := true, sessionToken := some t,
                      sessionState := .CONNECTING }
      else none
  | .createOk sid, s => some { s with sessionId := some sid }
  | .streamReady ms, s =>
      if s.sessionState ≠ .INACTIVE then
        some { s with stream := some ms, sessionState := .CONNECTED }
      else none
  | .stop, s =>
      some { s with stream := none, sessionId := none, sessionToken := none,
                    sessionState := .INACTIVE }

/-- Run a list of events from the initial context. -/
def runEvents (evs : List SessionEvent) : Option SessionCtx :=
  evs.foldl (fun acc e => acc.bind (applyEvent e)) (some initialSessionCtx)

/-- A context is reachable when some event sequence produces it. -/
def ReachableCtx (s : SessionCtx) : Prop :=
  ∃ evs, runEvents evs = some s

/-- Claim C1 as stated is false: after `init` stores the token the
state is still INACTIVE, so `sessionToken` is non-null in a reachable
non-CONNECTED state.  The claimed invariant — each of `sessionId`,
`sessionToken`, `stream` is non-null iff the state is CONNECTED — fails
at the context reached by the single event `init 7`. -/
theorem session_nonnull_iff_connected_counterexample :
    ¬ (∀ s : SessionCtx, ReachableCtx s →
        ((s.sessionId ≠ none ↔ s.sessionState = .CONNECTED) ∧
         (s.sessionToken ≠ none ↔ s.sessionState = .CONNECTED) ∧
         (s.stream ≠ none ↔ s.sessionState = .CONNECTED))) := by
  intro h
  have hreach : ReachableCtx ⟨.INACTIVE, none, none, some 7, true⟩ :=
    ⟨[.init 7], rfl⟩
  have htok := (h _ hreach).2.1
  have : StreamingAvatarSessionState.INACTIVE = StreamingAvatarSessionState.CONNECTED :=
    htok.mp (by simp)
  cases this

/-- The invariant that actually holds of the session machine: only the
media stream tracks CONNECTED.  No conjunct about `sessionId` survives,
because the `createOk` continuation can store it after `stop()` already
returned the machine to INACTIVE. -/
def sessionInvariant (s : SessionCtx) : Prop :=
  s.stream ≠ none ↔ s.sessionState = .CONNECTED

theorem foldl_applyEvent_none (evs : List SessionEvent) :
    List.foldl (fun acc e => acc.bind (applyEvent e)) none evs = none := by
  induction evs with
  | nil => rfl
  | cons e evs ih => simpa using ih

theorem applyEvent_invariant {e : SessionEvent} {s s2 : SessionCtx}
    (hI : sessionInvariant s) (h : applyEvent e s = some s2) : sessionInvariant s2 := by
  unfold sessionInvariant at hI ⊢
  cases e <;> simp only [applyEvent] at h
  case init t =>
    obtain rfl := Option.some.inj h
    simpa using hI
  case startOk =>
    split at h
    · rename_i hc
      obtain rfl := Option.some.inj h
      have hsn : s.stream = none := by
        by_contra hne
        rw [hI.mp hne] at hc
        exact absurd hc.1 (by simp)
      simp_all
    · exact Option.noConfusion h
  case startTok t =>
    split at h
    · rename_i hc
      obtain rfl := Option.some.inj h
      have hsn : s.stream = none := by
        by_contra hne
        rw [hI.mp hne] at hc
        exact absurd hc (by simp)
      simp_all
    · exact Option.noConfusion h
  case createOk sid =>
    obtain rfl := Option.some.inj h
    simpa using hI
  case streamReady ms =>
    split at h
    · rename_i hc
      obtain rfl := Option.some.inj h
      simp_all
    · exact Option.noConfusion h
  case stop =>
    obtain rfl := Option.some.inj h
    simp_all

theorem runEvents_invariant :
    ∀ (evs : List SessionEvent) (s0 s : SessionCtx), sessionInvariant s0 →
      evs.foldl (fun acc e => acc.bind (applyEvent e)) (some s0) = some s →
      sessionInvariant s := by
  intro evs
  induction evs with
  | nil => intro s0 s h0 hrun; simp at hrun; exact hrun ▸ h0
  | cons e evs ih =>
    intro s0 s h0 hrun
    rw [List.foldl_cons] at hrun
    rcases he : applyEvent e s0 with _ | s1
    · rw [show (some s0).bind (applyEvent e) = applyEvent e s0 from rfl, he,
        foldl_applyEvent_none] at hrun
      exact Option.noConfusion hrun
    · rw [show (some s0).bind (applyEvent e) = applyEvent e s0 from rfl, he] at hrun
      exact ih s1 s (applyEvent_invariant h0 he) hrun

/-- The interleaving the unconditional `createOk` admits is reachable
in the model, as in the program: `start()` registers the listeners and
awaits `createStartAvatar`; STREAM_READY connects; STREAM_DISCONNECTED
fires `stop()`, which nulls the fields and returns to INACTIVE; then
the pending creation continuation stores `session_id`, leaving a stable
INACTIVE context with a non-null `sessionId`.  So no `sessionId`
conjunct can be part of the amended invariant. -/
theorem session_inactive_sessionId_reachable :
    ReachableCtx ⟨.INACTIVE, none, some 5, none, true⟩ :=
  ⟨[.init 7, .startOk, .streamReady 3, .stop, .createOk 5], rfl⟩

/-- Claim C1, amended to what the code guarantees: in every reachable
context the media stream is non-null exactly when the state is
CONNECTED (so in particular the stream is null whenever the state is
INACTIVE or CONNECTING).  Neither direction of the original claim holds
for the other two identifiers: `init` populates `sessionToken` while
still INACTIVE; `sessionId` is stored during CONNECTING in the normal
flow, and `setSessionId` runs unconditionally when `createStartAvatar`
resolves, so a `stop()` racing the creation call even leaves
`sessionId` non-null in INACTIVE (see
`session_inactive_sessionId_reachable`). -/
theorem session_stream_iff_connected (s : SessionCtx) (h : ReachableCtx s) :
    (s.stream ≠ none ↔ s.sessionState = .CONNECTED) ∧
    (s.sessionState = .INACTIVE → s.stream = none) := by
  obtain ⟨evs, hrun⟩ := h
  have hiff := runEvents_invariant evs initialSessionCtx s (by simp [initialSessionCtx, sessionInvariant]) hrun
  refine ⟨hiff, fun hin => ?_⟩
  by_contra hne
  rw [hiff.mp hne] at hin
  exact absurd hin (by simp)

/-- Concrete instance of the amended claim C1: the context reached by
`init 7, startOk, createOk 5, streamReady 3` is CONNECTED with a
non-null stream. -/
theorem session_stream_iff_connected_witness :
    ((⟨.CONNECTED, some 3, some 5, some 7, true⟩ : SessionCtx).stream ≠ none ↔
      (⟨.CONNECTED, some 3, some 5, some 7, true⟩ : SessionCtx).sessionState = .CONNECTED) ∧
    ((⟨.CONNECTED, some 3, some 5, some 7, true⟩ : SessionCtx).sessionState = .INACTIVE →
      (⟨.CONNECTED, some 3, some 5, some 7, true⟩ : SessionCtx).stream = none) :=
  session_stream_iff_connected ⟨.CONNECTED, some 3, some 5, some 7, true⟩
    ⟨[.init 7, .startOk, .createOk 5, .streamReady 3], rfl⟩

/-! ## Listener registration and teardown (useStreamingAvatarSession.ts
`start`/`stop`; InteractiveAvatar.tsx `startSessionV2`) -/

/-- The `StreamingEvents` types used by the code. -/
inductive EvType where
  | streamReady
  | streamDisconnected
  | connectionQualityChanged
  | userStart
  | userStop
  | avatarStartTalking
  | avatarStopTalking
  | userTalkingMessage
  | avatarTalkingMessage
  | userEndMessage
  | avatarEndMessage
deriving DecidableEq

/-- Function identities of the handlers.  The named constructors are the
named callbacks of `useStreamingAvatarSession`; `anon cycle slot` is the
fresh anonymous arrow function that `startSessionV2` passes at position
`slot` during start/stop cycle number `cycle`. -/
inductive HandlerTag where
  | handleStream
  | stopHandler
  | handleConnectionQualityChanged
  | handleUserStart
  | handleUserStop
  | handleAvatarStartTalking
  | handleAvatarStopTalking
  | handleUserTalkingMessage
  | handleStreamingTalkingMessage
  | handleEndMessage
  | anon (cycle : Nat) (slot : Nat)
deriving DecidableEq

/-- The eleven `avatarRef.current.on(...)` registrations performed by
`start()` (lines 190 to 200), in source order. -/
def hookStartListeners : List (EvType × HandlerTag) :=
  [(.streamReady, .handleStream),
   (.streamDisconnected, .stopHandler),
   (.connectionQualityChanged, .handleConnectionQualityChanged),
   (.userStart, .handleUserStart),
   (.userStop, .handleUserStop),
   (.avatarStartTalking, .handleAvatarStartTalking),
   (.avatarStopTalking, .handleAvatarStopTalking),
   (.userTalkingMessage, .handleUserTalkingMessage),
   (.avatarTalkingMessage, .handleStreamingTalkingMessage),
   (.userEndMessage, .handleEndMessage),
   (.avatarEndMessage, .handleEndMessage)]

/-- The eleven `avatarRef.current.off(...)` calls performed by `stop()`
(lines 115 to 125), in source order. -/
def stopListeners : List (EvType × HandlerTag) :=
  [(.streamReady, .handleStream),
   (.streamDisconnected, .stopHandler),
   (.connectionQualityChanged, .handleConnectionQualityChanged),
   (.userStart, .handleUserStart),
   (.userStop, .handleUserStop),
   (.avatarStartTalking, .handleAvatarStartTalking),
   (.avatarStopTalking, .handleAvatarStopTalking),
   (.userTalkingMessage, .handleUserTalkingMessage),
   (.avatarTalkingMessage, .handleStreamingTalkingMessage),
   (.userEndMessage, .handleEndMessage),
   (.avatarEndMessage, .handleEndMessage)]

/-- The ten anonymous `avatar.on(...)` registrations performed by
`startSessionV2` (InteractiveAvatar.tsx lines 181 to 228), in source
order, during cycle `c`.  Each anonymous arrow function is a fresh
identity, hence the `anon c slot` tags. -/
def orchAnonListeners (c : Nat) : List (EvType × HandlerTag) :=
  [(.avatarStartTalking, .anon c 0),
   (.avatarStopTalking, .anon c 1),
   (.streamDisconnected, .anon c 2),
   (.streamReady, .anon c 3),
   (.userStart, .anon c 4),
   (.userStop, .anon c 5),
   (.userEndMessage, .anon c 6),
   (.userTalkingMessage, .anon c 7),
   (.avatarTalkingMessage, .anon c 8),
   (.avatarEndMessage, .anon c 9)]

/-- Everything registered during one session start driven by
`startSessionV2` in cycle `c`: first its own anonymous listeners, then
the named listeners registered by the hook `start()` it calls. -/
def sessionStartListeners (c : Nat) : List (EvType × HandlerTag) :=
  orchAnonListeners c ++ hookStartListeners

/-- Claim C4 as stated is false: the pairs deregistered at teardown are
not the full set registered at session start, because the ten anonymous
listeners added by `startSessionV2` are never passed to `off`.  Already
at cycle 0 the pair (AVATAR_START_TALKING, first anonymous handler) is
registered but not deregistered. -/
theorem teardown_listener_set_counterexample :
    ¬ (∀ c : Nat, (sessionStartListeners c).toFinset = stopListeners.toFinset) := by
  intro h
  have h0 := h 0
  have hmem : ((.avatarStartTalking, .anon 0 0) : EvType × HandlerTag) ∈
      (sessionStartListeners 0).toFinset := by decide
  rw [h0] at hmem
  exact absurd hmem (by decide)

/-- Claim C4, amended: the hook is itself listener-symmetric — `stop()`
deregisters exactly the eleven (event, handler) pairs `start()`
registered, in the same order, independent of the cycle count — but the
anonymous listeners registered by `startSessionV2` at session start are
never among the deregistered pairs, so they survive teardown. -/
theorem teardown_listener_symmetry :
    stopListeners = hookStartListeners ∧
    (∀ (c : Nat) (p : EvType × HandlerTag), p ∈ orchAnonListeners c → p ∉ stopListeners) := by
  refine ⟨rfl, ?_⟩
  intro c p hp
  simp only [orchAnonListeners, List.mem_cons, List.not_mem_nil, or_false] at hp
  rcases hp with h | h | h | h | h | h | h | h | h | h <;> subst h <;> simp [stopListeners]

/-- Concrete instance of the amended claim C4: in cycle 1 the first
anonymous listener pair is never deregistered. -/
theorem teardown_listener_symmetry_witness :
    ((.avatarStartTalking, .anon 1 0) : EvType × HandlerTag) ∉ stopListeners :=
  teardown_listener_symmetry.2 1 (.avatarStartTalking, .anon 1 0) (by decide)

/-! ## Pre-flight quota gate (InteractiveAvatar.tsx `startSessionV2`
lines 122 to 171) -/

/-- The possible results of `fetch("/api/quota-check")` as observed by
`startSessionV2`:

* `ok credits minutes activeSessions`: the response was OK and its JSON
  carried these fields;
* `notOk status`: the fetch resolved with a non-ok response;
* `threw`: the fetch (or JSON parsing) rejected, so control jumps to the
  outer catch of `startSessionV2`. -/
inductive QuotaFetch where
  | ok (credits minutes activeSessions : Nat)
  | notOk (status : Nat)
  | threw
deriving DecidableEq

/-- What becomes of the session-start flow after the quota gate. -/
inductive GateOutcome where
  | blockedNoCredits
  | declinedLowCredits
  | proceeded
  | abortedError
deriving DecidableEq

/-- Gate decision plus whether the user was shown the `confirm` prompt. -/
structure GateResult where
  outcome : GateOutcome
  prompted : Bool
deriving DecidableEq

/-- The quota gate of `startSessionV2`: on an OK response, zero credits
alert-and-return; credits below 2 prompt `confirm` and return when the
user declines; otherwise the start flow proceeds.  A non-ok response is
logged and the flow proceeds anyway.  A thrown quota-check error is
caught by the outer catch of `startSessionV2`, which logs and returns —
no token is fetched and no session is created. -/
def quotaGate : QuotaFetch → Bool → GateResult
  | .ok credits _ _, userConfirms =>
      if credits = 0 then ⟨.blockedNoCredits, false⟩
      else if credits < 2 then
        (if userConfirms then ⟨.proceeded, true⟩ else ⟨.declinedLowCredits, true⟩)
      else ⟨.proceeded, false⟩
  | .notOk _, _ => ⟨.proceeded, false⟩
  | .threw, _ => ⟨.abortedError, false⟩

/-- Claim C7 as stated is false in its fail-open part: a quota check
that throws does not lead to an unconditional session start.  The fetch
rejection is caught by the outer try/catch of `startSessionV2`, which
logs the error and returns, so the session is never started. -/
theorem quota_gate_counterexample :
    ¬ ((∀ m a u, (quotaGate (.ok 0 m a) u).outcome = .blockedNoCredits) ∧
       (∀ m a, (quotaGate (.ok 1 m a) true).outcome = .proceeded ∧
               (quotaGate (.ok 1 m a) true).prompted = true ∧
               (quotaGate (.ok 1 m a) false).outcome = .declinedLowCredits) ∧
       (∀ m a u, quotaGate (.ok 10 m a) u = ⟨.proceeded, false⟩) ∧
       (∀ u, (∀ s, (quotaGate (.notOk s) u).outcome = .proceeded) ∧
             (quotaGate .threw u).outcome = .proceeded)) := by
  intro h
  have := (h.2.2.2 true).2
  simp [quotaGate] at this

/-- Claim C7, amended: credits 0 block the start entirely; credits 1
prompt for confirmation and proceed only when confirmed; credits 10
proceed without prompting; a non-ok quota response fails open and the
start proceeds; but a quota check that throws aborts the whole
`startSessionV2` call (caught by its outer catch), so the session does
not start in that case. -/
theorem quota_gate_behavior :
    (∀ m a u, quotaGate (.ok 0 m a) u = ⟨.blockedNoCredits, false⟩) ∧
    (∀ m a, quotaGate (.ok 1 m a) true = ⟨.proceeded, true⟩ ∧
            quotaGate (.ok 1 m a) false = ⟨.declinedLowCredits, true⟩) ∧
    (∀ m a u, quotaGate (.ok 10 m a) u = ⟨.proceeded, false⟩) ∧
    (∀ u s, quotaGate (.notOk s) u = ⟨.proceeded, false⟩) ∧
    (∀ u, quotaGate .threw u = ⟨.abortedError, false⟩) := by
  refine ⟨fun m a u => rfl, fun m a => ⟨rfl, rfl⟩, fun m a u => rfl, fun u s => rfl, fun u => rfl⟩

/-! ## Character-level helpers for the JavaScript string operations -/

/-- The whitespace class used by JavaScript `trim()` and the regex
class backslash-s, restricted to the ASCII characters that can occur in
the modelled strings (space, tab, line feed, carriage return, vertical
tab, form feed). -/
def jsWhitespace (c : Char) : Bool :=
  c = ' ' || c = '\t' || c = '\n' || c = '\r' || c.toNat = 11 || c.toNat = 12

/-- JavaScript `String.prototype.trim` on a character list. -/
def jsTrim (l : List Char) : List Char :=
  ((l.dropWhile jsWhitespace).reverse.dropWhile jsWhitespace).reverse

/-! ## Message history reducer (context.tsx `useStreamingAvatarMessageState`) -/

/-- `MessageSender` from types.ts. -/
inductive MessageSender where
  | CLIENT
  | AVATAR
deriving DecidableEq

/-- A `Message` of the transcript.  `id` is produced by
`Date.now().toString()` in the source; it is modelled as a `Nat` drawn
from a per-history counter. -/
structure Message where
  id : Nat
  sender : MessageSender
  content : List Char
  isComplete : Bool
deriving DecidableEq

/-- The reducer state: the `messages` array, the `currentSenderRef`
tracker, and the id source. -/
structure MessageHistory where
  messages : List Message
  currentSender : Option MessageSender
  nextId : Nat
deriving DecidableEq

/-- The shared body of `handleUserTalkingMessage` and
`handleStreamingTalkingMessage`: if the tracked current sender equals
the event sender, the last message is extended by concatenation and
kept incomplete; otherwise the tracker is set and a fresh incomplete
message is appended.  (When the tracker claims an open message but the
history is empty the source would fault on `prev[prev.length - 1]`;
that combination is unreachable and the model returns the state
unchanged there.) -/
def talkingMessageStep (sender : MessageSender) (s : MessageHistory)
    (text : List Char) : MessageHistory :=
  if s.currentSender = some sender then
    match s.messages.getLast? with
    | some m =>
        { s with messages := s.messages.dropLast ++
            [{ m with content := m.content ++ text, isComplete := false }] }
    | none => s
  else
    { messages := s.messages ++ [⟨s.nextId, sender, text, false⟩],
      currentSender := some sender,
      nextId := s.nextId + 1 }

/-- `handleUserTalkingMessage` (context.tsx lines 548 to 574). -/
def handleUserTalkingMessage (s : MessageHistory) (text : List Char) : MessageHistory :=
  talkingMessageStep .CLIENT s text

/-- `handleStreamingTalkingMessage` (context.tsx lines 576 to 629):
no-op while `suppressAvatarEvents` is set, otherwise the same step for
the AVATAR sender. -/
def handleStreamingTalkingMessage (suppressAvatarEvents : Bool)
    (s : MessageHistory) (text : List Char) : MessageHistory :=
  if suppressAvatarEvents then s else talkingMessageStep .AVATAR s text

/-- `handleEndMessage` (context.tsx lines 631 to 644): mark the last
message complete (no-op on an empty history) and clear the tracker. -/
def handleEndMessage (s : MessageHistory) : MessageHistory :=
  { messages :=
      match s.messages.getLast? with
      | some m => s.messages.dropLast ++ [{ m with isComplete := true }]
      | none => s.messages,
    currentSender := none,
    nextId := s.nextId }

/-- `addTextMessage` (context.tsx lines 646 to 656): append an already
complete message; the tracker is not touched. -/
def addTextMessage (s : MessageHistory) (sender : MessageSender)
    (content : List Char) : MessageHistory :=
  { messages := s.messages ++ [⟨s.nextId, sender, content, true⟩],
    currentSender := s.currentSender,
    nextId := s.nextId + 1 }

/-- Dispatch a partial-transcript event for a given sender through the
corresponding source handler (avatar events unsuppressed). -/
def senderPartialHandler : MessageSender → MessageHistory → List Char → MessageHistory
  | .CLIENT => handleUserTalkingMessage
  | .AVATAR => handleStreamingTalkingMessage false

theorem senderPartialHandler_eq (sender : MessageSender) :
    senderPartialHandler sender = talkingMessageStep sender := by
  cases sender <;> rfl

theorem talkingMessageStep_new {sender : MessageSender} {s : MessageHistory}
    (h : ¬ s.currentSender = some sender) (t : List Char) :
    talkingMessageStep sender s t =
      ⟨s.messages ++ [⟨s.nextId, sender, t, false⟩], some sender, s.nextId + 1⟩ := by
  unfold talkingMessageStep
  rw [if_neg h]

theorem talkingMessageStep_extend {sender : MessageSender} {s : MessageHistory}
    {ms : List Message} {m : Message}
    (hcs : s.currentSender = some sender) (hm : s.messages = ms ++ [m]) (t : List Char) :
    talkingMessageStep sender s t =
      { s with messages := ms ++ [{ m with content := m.content ++ t, isComplete := false }] } := by
  unfold talkingMessageStep
  rw [if_pos hcs, hm, List.getLast?_concat, List.dropLast_concat]

theorem foldPartials_extend (sender : MessageSender) :
    ∀ (texts : List (List Char)) (s : MessageHistory) (ms : List Message) (m : Message),
      s.currentSender = some sender → s.messages = ms ++ [m] → m.isComplete = false →
      texts.foldl (talkingMessageStep sender) s =
        { messages := ms ++ [⟨m.id, m.sender, m.content ++ texts.flatten, false⟩],
          currentSender := some sender, nextId := s.nextId } := by
  intro texts
  induction texts with
  | nil =>
    intro s ms m hcs hm hic
    obtain ⟨sm, sc, sn⟩ := s
    obtain ⟨mi, msd, mc, mic⟩ := m
    simp only at hcs hm hic
    subst hcs
    subst hm
    subst hic
    simp
  | cons t ts ih =>
    intro s ms m hcs hm hic
    rw [List.foldl_cons, talkingMessageStep_extend hcs hm t]
    rw [ih { s with messages := ms ++ [{ m with content := m.content ++ t, isComplete := false }] }
        ms { m with content := m.content ++ t, isComplete := false } (by simpa using hcs) rfl rfl]
    simp [List.append_assoc]

/-- Claim C8: for every sequence of partial-transcript events from a
single sender applied with no intervening end-of-turn event, starting
from a history whose open turn (if any) belongs to a different sender,
the open message after any nonempty prefix of the sequence has content
equal to the ordered concatenation of the event texts of that prefix,
sender equal to the event sender, and `isComplete = false`; earlier
messages are untouched. -/
theorem message_partials_concat (sender : MessageSender) (texts : List (List Char))
    (s : MessageHistory) (hcs : ¬ s.currentSender = some sender) :
    ∀ n, 0 < n → n ≤ texts.length →
      ((texts.take n).foldl (senderPartialHandler sender) s).messages =
        s.messages ++ [⟨s.nextId, sender, (texts.take n).flatten, false⟩] ∧
      ((texts.take n).foldl (senderPartialHandler sender) s).currentSender = some sender := by
  intro n hn hlen
  rw [senderPartialHandler_eq]
  obtain ⟨k, rfl⟩ : ∃ k, n = k + 1 := ⟨n - 1, by omega⟩
  cases texts with
  | nil => simp at hlen
  | cons t ts =>
    simp only [List.take_succ_cons, List.foldl_cons]
    rw [talkingMessageStep_new hcs t]
    have h := foldPartials_extend sender (ts.take k)
      (MessageHistory.mk (s.messages ++ [Message.mk s.nextId sender t false])
        (some sender) (s.nextId + 1))
      s.messages (Message.mk s.nextId sender t false) rfl rfl rfl
    rw [h]
    simp

/-- Concrete instance of claim C8: two CLIENT partial events with texts
`Hel` and `lo.` on the empty history produce one open message with
content `Hello.` and `isComplete = false`. -/
theorem message_partials_concat_witness :
    ((["Hel".data, "lo.".data].take 2).foldl (senderPartialHandler .CLIENT)
        ⟨[], none, 0⟩).messages =
      ([] : List Message) ++ [⟨0, .CLIENT, (["Hel".data, "lo.".data].take 2).flatten, false⟩] ∧
    ((["Hel".data, "lo.".data].take 2).foldl (senderPartialHandler .CLIENT)
        ⟨[], none, 0⟩).currentSender = some .CLIENT :=
  message_partials_concat .CLIENT ["Hel".data, "lo.".data] ⟨[], none, 0⟩
    (by simp) 2 (by decide) (by decide)

/-! ## Trigger evaluation (useVoiceChatLLMIntegration.ts) -/

/-- The refs of `useVoiceChatLLMIntegration` plus the record of LLM
invocations performed. -/
structure TriggerState where
  processing : Bool
  lastProcessedId : Option Nat
  invocations : List Nat
deriving DecidableEq

/-- One run of the effect body of `useVoiceChatLLMIntegration` (lines
16 to 65 of the hook).  The body is synchronous up to and including the
update of `processingRef` and `lastProcessedMessageIdRef`, so in the
single-threaded event model a whole evaluation is one atomic step; the
asynchronous `sendToLLM` work that follows is recorded in
`invocations`. -/
def triggerEval (isVoiceChatActive isLLMProcessing : Bool)
    (messages : List Message) (s : TriggerState) : TriggerState :=
  if !isVoiceChatActive || isLLMProcessing || s.processing then s
  else
    match messages.getLast? with
    | none => s
    | some m =>
        if m.sender = .CLIENT ∧ ¬ some m.id = s.lastProcessedId ∧
            ¬ jsTrim m.content = [] ∧ m.isComplete = true then
          ⟨true, some m.id, s.invocations ++ [m.id]⟩
        else s

/-- Claim C9: when two trigger evaluations for the same newly complete
CLIENT message run while no LLM turn is in flight, exactly one
invocation results — the first evaluation sets the reentrancy guard and
the last-processed-message marker synchronously, so the second
evaluation is a no-op; moreover any evaluation that observes the guard
set leaves the state untouched, so at most one turn is admitted at a
time. -/
theorem trigger_single_invocation (msgs : List Message) (s : TriggerState) (m : Message)
    (hp : s.processing = false) (hl : msgs.getLast? = some m)
    (hs : m.sender = .CLIENT) (hid : ¬ some m.id = s.lastProcessedId)
    (hc : ¬ jsTrim m.content = []) (hcomp : m.isComplete = true) :
    triggerEval true false msgs s = ⟨true, some m.id, s.invocations ++ [m.id]⟩ ∧
    (triggerEval true false msgs (triggerEval true false msgs s)).invocations =
      s.invocations ++ [m.id] ∧
    (∀ (a l : Bool) (msgs2 : List Message) (s2 : TriggerState), s2.processing = true →
      triggerEval a l msgs2 s2 = s2) := by
  have hblock : ∀ (a l : Bool) (msgs2 : List Message) (s2 : TriggerState),
      s2.processing = true → triggerEval a l msgs2 s2 = s2 := by
    intro a l msgs2 s2 h2
    unfold triggerEval
    rw [h2]
    simp
  have hfirst : triggerEval true false msgs s = ⟨true, some m.id, s.invocations ++ [m.id]⟩ := by
    simp [triggerEval, hp, hl, hs, hid, hc, hcomp]
  refine ⟨hfirst, ?_, hblock⟩
  rw [hfirst, hblock true false msgs _ rfl]

/-- Concrete instance of claim C9: one complete CLIENT message with
content `Hi.` and a fresh trigger state yield exactly one invocation
across two back-to-back evaluations. -/
theorem trigger_single_invocation_witness :
    triggerEval true false [⟨1, .CLIENT, "Hi.".data, true⟩] ⟨false, none, []⟩ =
      ⟨true, some 1, [] ++ [1]⟩ ∧
    (triggerEval true false [⟨1, .CLIENT, "Hi.".data, true⟩]
        (triggerEval true false [⟨1, .CLIENT, "Hi.".data, true⟩] ⟨false, none, []⟩)).invocations =
      [] ++ [1] ∧
    (∀ (a l : Bool) (msgs2 : List Message) (s2 : TriggerState), s2.processing = true →
      triggerEval a l msgs2 s2 = s2) :=
  trigger_single_invocation [⟨1, .CLIENT, "Hi.".data, true⟩] ⟨false, none, []⟩
    ⟨1, .CLIENT, "Hi.".data, true⟩ rfl (by decide) rfl (by simp) (by decide) rfl

/-! ## Sentence-aware chunk relay (useLLMChat.ts `sendToLLM` streaming
loop, lines 319 to 414; SENTENCE_ENDING_REGEX and MAX_BUFFER_LENGTH at
lines 93 to 94) -/

/-- The character class of SENTENCE_ENDING_REGEX `[.!?]`. -/
def sentenceEnder (c : Char) : Bool :=
  c = '.' || c = '!' || c = '?'

/-- Length of the maximal leading run of sentence enders. -/
def enderRun : List Char → Nat
  | [] => 0
  | c :: cs => if sentenceEnder c then enderRun cs + 1 else 0

/-- Length of a match of `[.!?]+(\s|$)` anchored at the start of the
list: one or more enders followed by a whitespace character (length
run + 1) or by the end of the string (length run).  A longer or shorter
ender run followed by anything else cannot match, mirroring regex
backtracking. -/
def regexMatchLen (cs : List Char) : Option Nat :=
  let r := enderRun cs
  if r = 0 then none
  else
    match cs.drop r with
    | [] => some r
    | c :: _ => if jsWhitespace c then some (r + 1) else none

/-- `sentenceBuffer.match(SENTENCE_ENDING_REGEX)` followed by
`match.index + match[0].length`: the end position of the first match of
the sentence-boundary regex, or `none`. -/
def findBoundary : List Char → Option Nat
  | [] => none
  | c :: cs =>
    match regexMatchLen (c :: cs) with
    | some n => some n
    | none => (findBoundary cs).map (fun k => k + 1)

/-- Why a chunk was dispatched (specification section 3, Speech Chunk). -/
inductive ChunkReason where
  | sentenceBoundary
  | maxLength
  | streamEnd
deriving DecidableEq, Inhabited

/-- MAX_BUFFER_LENGTH (useLLMChat.ts line 94). -/
def MAX_BUFFER_LENGTH : Nat := 500

/-- The boundary scan performed on the buffer after appending one
content fragment (lines 365 to 400): if the regex matches, the buffer
up to the match end is trimmed and dispatched and the rest is retained;
otherwise, if the buffer exceeds MAX_BUFFER_LENGTH, the whole trimmed
buffer is dispatched and the buffer is emptied; a candidate that trims
to the empty string is not dispatched and the buffer is left unchanged. -/
def boundaryStep (b : List Char) : List (List Char × ChunkReason) × List Char :=
  match findBoundary b with
  | some e =>
      let t := jsTrim (b.take e)
      if t = [] then ([], b) else ([(t, ChunkReason.sentenceBoundary)], b.drop e)
  | none =>
      if b.length > MAX_BUFFER_LENGTH then
        let t := jsTrim b
        if t = [] then ([], b) else ([(t, ChunkReason.maxLength)], [])
      else ([], b)

/-- Processing of one `data.content` fragment: falsy (empty) content is
skipped (`if (data.content)`), otherwise the fragment is appended to
the buffer and the boundary scan runs once. -/
def processContent (buf content : List Char) : List (List Char × ChunkReason) × List Char :=
  if content = [] then ([], buf) else boundaryStep (buf ++ content)

/-- The streaming loop over a list of content fragments: returns the
dispatched chunks in order and the final buffer. -/
def relaySteps : List Char → List (List Char) → List (List Char × ChunkReason) × List Char
  | buf, [] => ([], buf)
  | buf, c :: cs =>
    let s1 := processContent buf c
    let s2 := relaySteps s1.2 cs
    (s1.1 ++ s2.1, s2.2)

/-- A full relay run: consume the stream from an empty buffer, then the
stream-end flush (lines 322 to 335): a non-empty trimmed remainder is
dispatched as a final chunk. -/
def relayRun (contents : List (List Char)) : List (List Char × ChunkReason) :=
  if jsTrim (relaySteps [] contents).2 = [] then (relaySteps [] contents).1
  else (relaySteps [] contents).1 ++
    [(jsTrim (relaySteps [] contents).2, ChunkReason.streamEnd)]

/-- The claim C2 input text. -/
def THW : List Char := "Hello world. How are you? ".data

/-- The first chunk of claim C2. -/
def hwChunk : List Char := "Hello world.".data

/-- The second chunk of claim C2. -/
def hayChunk : List Char := "How are you?".data

/-- The slice of the claim C2 text from position `j` (inclusive) to `k`
(exclusive). -/
def thwSlice (j k : Nat) : List Char := (THW.drop j).take (k - j)

/-- The chunks dispatched so far at each of the five reachable relay
stages for the claim C2 text: nothing before the first split; the first
sentence after the split at the period (with the retained remainder
starting at position 12 or 13 depending on whether the trailing space
had arrived); both sentences after the second split (remainder starting
at 25 or 26). -/
def stageOut : Fin 5 → List (List Char × ChunkReason)
  | 0 => []
  | 1 => [(hwChunk, .sentenceBoundary)]
  | 2 => [(hwChunk, .sentenceBoundary)]
  | 3 => [(hwChunk, .sentenceBoundary), (hayChunk, .sentenceBoundary)]
  | 4 => [(hwChunk, .sentenceBoundary), (hayChunk, .sentenceBoundary)]

/-- Start position of the retained buffer at each stage. -/
def stageJ : Fin 5 → Nat
  | 0 => 0
  | 1 => 12
  | 2 => 13
  | 3 => 25
  | 4 => 26

/-- Which consumed-prefix lengths `k` are possible at each stage. -/
def stageValidB : Fin 5 → Nat → Bool
  | 0, k => k < 12
  | 1, k => 12 ≤ k && k ≤ 26
  | 2, k => 13 ≤ k && k ≤ 26
  | 3, k => 25 ≤ k && k ≤ 26
  | 4, k => k = 26

set_option maxRecDepth 10000 in
theorem boundaryStep_stageF : ∀ (i : Fin 5) (kk : Fin 27),
    (∃ k : Fin 27, stageValidB i k = true ∧ k < kk) →
    ∃ i2 : Fin 5, stageValidB i2 kk = true ∧
      stageOut i ++ (boundaryStep (thwSlice (stageJ i) kk)).1 = stageOut i2 ∧
      (boundaryStep (thwSlice (stageJ i) kk)).2 = thwSlice (stageJ i2) kk := by decide

theorem stageValidB_bounds : ∀ (i : Fin 5) (k : Nat), stageValidB i k = true →
    stageJ i ≤ k ∧ k ≤ 26 := by
  intro i k h
  fin_cases i <;> simp [stageValidB, stageJ] at h ⊢ <;> omega

theorem thwSlice_zero : thwSlice 0 0 = [] := rfl

theorem thwSlice_full : THW = thwSlice 0 26 := by decide

theorem thwSlice_length {k : Nat} : (thwSlice k 26).length = 26 - k := by
  have hl : THW.length = 26 := by decide
  unfold thwSlice
  rw [List.length_take, List.length_drop, hl]
  omega

theorem thwSlice_append {j k k2 : Nat} (h1 : j ≤ k) (h2 : k ≤ k2) :
    thwSlice j k ++ thwSlice k k2 = thwSlice j k2 := by
  unfold thwSlice
  have hd : THW.drop k = (THW.drop j).drop (k - j) := by
    rw [List.drop_drop]
    congr 1
    omega
  rw [hd]
  rw [show k2 - j = (k - j) + (k2 - k) from by omega, List.take_add]

theorem thwSlice_take {k n : Nat} (h : k + n ≤ 26) :
    (thwSlice k 26).take n = thwSlice k (k + n) := by
  unfold thwSlice
  rw [List.take_take]
  congr 1
  omega

theorem thwSlice_drop {k n : Nat} :
    (thwSlice k 26).drop n = thwSlice (k + n) 26 := by
  unfold thwSlice
  rw [List.drop_take, List.drop_drop]
  congr 1
  omega

set_option maxRecDepth 10000 in
theorem finalFlush_stage : ∀ i2 : Fin 5, stageValidB i2 26 = true →
    ((if jsTrim (thwSlice (stageJ i2) 26) = [] then stageOut i2
      else stageOut i2 ++ [(jsTrim (thwSlice (stageJ i2) 26), ChunkReason.streamEnd)]).map
        Prod.fst = [hwChunk, hayChunk] ∧
     ∀ p ∈ (if jsTrim (thwSlice (stageJ i2) 26) = [] then stageOut i2
            else stageOut i2 ++ [(jsTrim (thwSlice (stageJ i2) 26), ChunkReason.streamEnd)]),
       p.2 ≠ ChunkReason.maxLength) := by decide

theorem relaySteps_stage :
    ∀ (cs : List (List Char)) (i : Fin 5) (k : Nat),
      stageValidB i k = true → cs.flatten = thwSlice k 26 →
      ∃ i2 : Fin 5, stageValidB i2 26 = true ∧
        stageOut i ++ (relaySteps (thwSlice (stageJ i) k) cs).1 = stageOut i2 ∧
        (relaySteps (thwSlice (stageJ i) k) cs).2 = thwSlice (stageJ i2) 26 := by
  intro cs
  induction cs with
  | nil =>
    intro i k hv hflat
    obtain ⟨hj, hk⟩ := stageValidB_bounds i k hv
    have hlen : (thwSlice k 26).length = 26 - k := thwSlice_length
    rw [← hflat] at hlen
    simp at hlen
    have hk26 : k = 26 := by omega
    subst hk26
    exact ⟨i, hv, by simp [relaySteps], by simp [relaySteps]⟩
  | cons c cs ih =>
    intro i k hv hflat
    obtain ⟨hj, hk⟩ := stageValidB_bounds i k hv
    by_cases hc : c = []
    · subst hc
      simp only [List.flatten_cons, List.nil_append] at hflat
      obtain ⟨i2, h1, h2, h3⟩ := ih i k hv hflat
      refine ⟨i2, h1, ?_, ?_⟩
      · simpa [relaySteps, processContent] using h2
      · simpa [relaySteps, processContent] using h3
    · have hflat2 : c ++ cs.flatten = thwSlice k 26 := by
        simpa [List.flatten_cons] using hflat
      have hn : 0 < c.length := List.length_pos.mpr hc
      have hlen : c.length + cs.flatten.length = 26 - k := by
        have := congrArg List.length hflat2
        simpa [thwSlice_length] using this
      have hkn : k + c.length ≤ 26 := by omega
      have h1 : (c ++ cs.flatten).take c.length = c := List.take_left c cs.flatten
      rw [hflat2] at h1
      have hcslice : c = thwSlice k (k + c.length) := h1.symm.trans (thwSlice_take hkn)
      have h2 : (c ++ cs.flatten).drop c.length = cs.flatten := List.drop_left c cs.flatten
      rw [hflat2] at h2
      have hcsflat : cs.flatten = thwSlice (k + c.length) 26 := h2.symm.trans thwSlice_drop
      have hbufc : thwSlice (stageJ i) k ++ c = thwSlice (stageJ i) (k + c.length) := by
        conv_lhs => rw [hcslice]
        exact thwSlice_append hj (by omega)
      have hstep := boundaryStep_stageF i ⟨k + c.length, by omega⟩
        ⟨⟨k, by omega⟩, hv, by simpa using hn⟩
      obtain ⟨i3, hv3, hout3, hbuf3⟩ := hstep
      simp only [Fin.val_mk] at hv3 hout3 hbuf3
      obtain ⟨i2, hv2, hout2, hbuf2⟩ := ih i3 (k + c.length) hv3 hcsflat
      refine ⟨i2, hv2, ?_, ?_⟩
      · show stageOut i ++ (relaySteps (thwSlice (stageJ i) k) (c :: cs)).1 = stageOut i2
        simp only [relaySteps, processContent, if_neg hc, hbufc, hbuf3]
        rw [← List.append_assoc, hout3, hout2]
      · show (relaySteps (thwSlice (stageJ i) k) (c :: cs)).2 = thwSlice (stageJ i2) 26
        simp only [relaySteps, processContent, if_neg hc, hbufc, hbuf3]
        exact hbuf2

/-- Claim C2: for every stream of content fragments whose concatenation
is `Hello world. How are you? `, the relay dispatches exactly two
chunks, in order `Hello world.` then `How are you?`, and no dispatch
uses the forced-flush (max-length) path. -/
theorem relay_sentence_chunks (cs : List (List Char)) (h : cs.flatten = THW) :
    (relayRun cs).map Prod.fst = [hwChunk, hayChunk] ∧
    ∀ p ∈ relayRun cs, p.2 ≠ ChunkReason.maxLength := by
  have h0 : cs.flatten = thwSlice 0 26 := by rw [h, thwSlice_full]
  have hstart := relaySteps_stage cs 0 0 (by decide) h0
  rw [show stageJ 0 = 0 from rfl, thwSlice_zero] at hstart
  obtain ⟨i2, hv2, hout, hbuf⟩ := hstart
  rw [show stageOut 0 = [] from rfl, List.nil_append] at hout
  have hfin := finalFlush_stage i2 hv2
  unfold relayRun
  rw [hout, hbuf]
  exact hfin

/-- Concrete instance of claim C2: the whole text delivered as a single
content fragment. -/
theorem relay_sentence_chunks_witness :
    (relayRun ["Hello world. How are you? ".data]).map Prod.fst = [hwChunk, hayChunk] ∧
    ∀ p ∈ relayRun ["Hello world. How are you? ".data], p.2 ≠ ChunkReason.maxLength :=
  relay_sentence_chunks ["Hello world. How are you? ".data] (by decide)

/-! ## Per-chunk dispatch with retry (useLLMChat.ts `sendChunkToAvatar`,
lines 158 to 237) -/

/-- What one `fetch("/api/streaming-task", ...)` attempt produces, as
observed by the retry loop: an ok response, a non-ok response with a
status code, or a network-level failure (the fetch or the body read
threw). -/
inductive FetchOutcome where
  | ok
  | httpErr (status : Nat)
  | netErr
deriving DecidableEq

/-- The observable outcome of one `sendChunkToAvatar` call: how many
fetch attempts were made, whether the chunk was delivered, and the
sleep delays taken between attempts.  The function always returns
normally — every failure path in the source ends in `return`, never in
a throw. -/
structure ChunkResult where
  attempts : Nat
  delivered : Bool
  delays : List Nat
deriving DecidableEq

/-- MAX_CHUNK_RETRIES (useLLMChat.ts line 166). -/
def MAX_CHUNK_RETRIES : Nat := 2

/-- CHUNK_RETRY_DELAY in milliseconds (useLLMChat.ts line 167). -/
def CHUNK_RETRY_DELAY : Nat := 500

/-- The retry loop of `sendChunkToAvatar` (`for attempt = 1 to 2`):
an ok response returns success; a non-ok response retries after a delay
only when the status is exactly 500 and another attempt remains,
otherwise the chunk is abandoned; a thrown network error retries when
an attempt remains and is otherwise swallowed, abandoning the chunk.
`fuel` mirrors the remaining loop iterations (the fuel-exhausted arm is
unreachable from `fuel = MAX_CHUNK_RETRIES`, `attempt = 1`). -/
def chunkLoop (outcomes : Nat → FetchOutcome) : Nat → Nat → ChunkResult
  | 0, attempt => ⟨attempt - 1, false, []⟩
  | fuel + 1, attempt =>
    match outcomes attempt with
    | .ok => ⟨attempt, true, []⟩
    | .httpErr s =>
        if s = 500 ∧ attempt < MAX_CHUNK_RETRIES then
          let r := chunkLoop outcomes fuel (attempt + 1)
          ⟨r.attempts, r.delivered, CHUNK_RETRY_DELAY :: r.delays⟩
        else ⟨attempt, false, []⟩
    | .netErr =>
        if attempt < MAX_CHUNK_RETRIES then
          let r := chunkLoop outcomes fuel (attempt + 1)
          ⟨r.attempts, r.delivered, CHUNK_RETRY_DELAY :: r.delays⟩
        else ⟨attempt, false, []⟩

/-- `sendChunkToAvatar`: the guard at lines 160 to 163 returns at once,
with no fetch attempt and no error, when `sessionId` or `sessionToken`
is null; otherwise the retry loop runs.  `outcomes n` is what the
n-th fetch attempt would produce. -/
def sendChunkToAvatar (sessionId sessionToken : Option Nat)
    (outcomes : Nat → FetchOutcome) : ChunkResult :=
  if sessionId = none ∨ sessionToken = none then ⟨0, false, []⟩
  else chunkLoop outcomes MAX_CHUNK_RETRIES 1

theorem chunkLoop_two (outcomes : Nat → FetchOutcome) :
    chunkLoop outcomes 2 1 =
      match outcomes 1 with
      | .ok => ⟨1, true, []⟩
      | .httpErr s =>
          if s = 500 then
            (match outcomes 2 with
             | .ok => ⟨2, true, [CHUNK_RETRY_DELAY]⟩
             | _ => ⟨2, false, [CHUNK_RETRY_DELAY]⟩)
          else ⟨1, false, []⟩
      | .netErr =>
          match outcomes 2 with
          | .ok => ⟨2, true, [CHUNK_RETRY_DELAY]⟩
          | _ => ⟨2, false, [CHUNK_RETRY_DELAY]⟩ := by
  rcases h1 : outcomes 1 with _ | s | _ <;>
    rcases h2 : outcomes 2 with _ | s2 | _ <;>
    simp [chunkLoop, h1, h2, MAX_CHUNK_RETRIES]

/-- Claim C3 as stated is false in its retry condition: a chunk
dispatch that receives a 5xx response other than 500 is not retried.
The source retries only on `response.status === 500`; with a first
outcome of 503 only one attempt is made. -/
theorem chunk_retry_counterexample :
    ¬ (∀ (sid tok : Option Nat) (outcomes : Nat → FetchOutcome) (s : Nat),
        ¬ sid = none → ¬ tok = none → outcomes 1 = .httpErr s → 500 ≤ s → s < 600 →
        (sendChunkToAvatar sid tok outcomes).attempts = 2) := by
  intro h
  have h2 := h (some 0) (some 0) (fun _ => .httpErr 503) 503
    (by simp) (by simp) rfl (by omega) (by omega)
  exact absurd h2 (by decide)

/-- Claim C3, amended: a chunk dispatch makes at most 2 attempts; it is
retried, after a fixed 500 ms delay, exactly on a 500 response or a
network-level failure with an attempt remaining; any other non-ok
response (4xx, and also 5xx other than 500) abandons the chunk after
one attempt; exhausted retries abandon the chunk; no path raises an
error, and every chunk in a sequence of dispatches gets its own
attempt regardless of earlier results. -/
theorem chunk_dispatch_retry (sid tok : Option Nat) (outcomes : Nat → FetchOutcome)
    (hs : ¬ sid = none) (ht : ¬ tok = none) :
    (sendChunkToAvatar sid tok outcomes).attempts ≤ 2 ∧
    (outcomes 1 = .ok → sendChunkToAvatar sid tok outcomes = ⟨1, true, []⟩) ∧
    (∀ s, outcomes 1 = .httpErr s → ¬ s = 500 →
      sendChunkToAvatar sid tok outcomes = ⟨1, false, []⟩) ∧
    (outcomes 1 = .httpErr 500 →
      (sendChunkToAvatar sid tok outcomes).attempts = 2 ∧
      (sendChunkToAvatar sid tok outcomes).delays = [CHUNK_RETRY_DELAY] ∧
      (sendChunkToAvatar sid tok outcomes).delivered = decide (outcomes 2 = .ok)) ∧
    (outcomes 1 = .netErr →
      (sendChunkToAvatar sid tok outcomes).attempts = 2 ∧
      (sendChunkToAvatar sid tok outcomes).delays = [CHUNK_RETRY_DELAY]) ∧
    (∀ (envs : List (Nat → FetchOutcome)),
      (envs.map (sendChunkToAvatar sid tok)).length = envs.length) := by
  have hguard : sendChunkToAvatar sid tok outcomes = chunkLoop outcomes 2 1 := by
    unfold sendChunkToAvatar
    rw [if_neg (by simp [hs, ht])]
    rfl
  refine ⟨?_, ?_, ?_, ?_, ?_, ?_⟩
  · rw [hguard, chunkLoop_two]
    rcases h1 : outcomes 1 with _ | s | _ <;> rcases h2 : outcomes 2 with _ | s2 | _ <;>
      simp <;> split <;> simp
  · intro h1
    rw [hguard, chunkLoop_two, h1]
  · intro s h1 hns
    rw [hguard, chunkLoop_two, h1]
    simp [hns]
  · intro h1
    rw [hguard, chunkLoop_two, h1]
    rcases h2 : outcomes 2 with _ | s2 | _ <;> simp [h2]
  · intro h1
    rw [hguard, chunkLoop_two, h1]
    rcases h2 : outcomes 2 with _ | s2 | _ <;> simp [h2]
  · intro envs
    exact List.length_map envs _

/-- Concrete instance of the amended claim C3: first attempt 500, then
success — two attempts, one 500 ms delay, delivered. -/
theorem chunk_dispatch_retry_witness :
    ((sendChunkToAvatar (some 4) (some 5)
        (fun n => if n = 1 then .httpErr 500 else .ok)).attempts = 2 ∧
     (sendChunkToAvatar (some 4) (some 5)
        (fun n => if n = 1 then .httpErr 500 else .ok)).delays = [CHUNK_RETRY_DELAY] ∧
     (sendChunkToAvatar (some 4) (some 5)
        (fun n => if n = 1 then .httpErr 500 else .ok)).delivered =
       decide ((fun n => if n = 1 then .httpErr 500 else FetchOutcome.ok) 2 = .ok)) :=
  (chunk_dispatch_retry (some 4) (some 5) (fun n => if n = 1 then .httpErr 500 else .ok)
    (by simp) (by simp)).2.2.2.1 (by simp)

/-! ## LLM invocation retry loop (useLLMChat.ts `isRetryableError` lines
106 to 128 and `sendToLLM` lines 243 to 516) -/

/-- A JavaScript `Error` as `isRetryableError` sees it: its `name` and
`message`. -/
structure JsError where
  name : List Char
  message : List Char
deriving DecidableEq

/-- The decimal digit character for `d % 10`. -/
def digitChar (d : Nat) : Char := Char.ofNat (48 + d % 10)

/-- Decimal rendering of a three-digit HTTP status, as template-string
interpolation of `response.status` produces for statuses 100 to 999. -/
def natToChars3 (s : Nat) : List Char :=
  [digitChar (s / 100), digitChar (s / 10), digitChar s]

/-- Whether the regex `(\d{3})` matches at the start of the list, and
the numeric value `parseInt` would produce from the matched digits. -/
def threeDigitsAt : List Char → Option Nat
  | a :: b :: c :: _ =>
      if a.isDigit && b.isDigit && c.isDigit then
        some ((a.toNat - 48) * 100 + (b.toNat - 48) * 10 + (c.toNat - 48))
      else none
  | _ => none

/-- `message.match(/(\d{3})/)` followed by `parseInt`: the value of the
first three consecutive digits anywhere in the message. -/
def findThreeDigits : List Char → Option Nat
  | [] => none
  | c :: cs =>
    match threeDigitsAt (c :: cs) with
    | some v => some v
    | none => findThreeDigits cs

/-- `String.prototype.includes` on character lists. -/
def containsSub (needle : List Char) : List Char → Bool
  | [] => needle.isPrefixOf []
  | c :: cs => needle.isPrefixOf (c :: cs) || containsSub needle cs

/-- `isRetryableError` (useLLMChat.ts lines 106 to 128): `AbortError`
is retryable; a message containing `Failed to fetch` or `network` is
retryable; otherwise, if the message contains a three-digit number, the
error is retryable exactly when that number is in the 5xx range; with
no such number the error is not retryable. -/
def isRetryableError (e : JsError) : Bool :=
  if e.name = "AbortError".data then true
  else if containsSub "Failed to fetch".data e.message ||
      containsSub "network".data e.message then true
  else
    match findThreeDigits e.message with
    | some s => 500 ≤ s && s < 600
    | none => false

/-- What the n-th LLM fetch attempt produces: a non-ok response (which
`sendToLLM` turns into the thrown error
`LLM API request failed: <status> <statusText>`), an abort (30-second
timeout), a network failure, or a successful streaming response with
its content fragments. -/
inductive LLMAttempt where
  | httpErr (status : Nat) (statusText : List Char)
  | abortErr
  | netErr
  | streamOk (contents : List (List Char))

/-- The `Error` value each failing attempt kind is caught as. -/
def attemptError : LLMAttempt → JsError
  | .httpErr s st => ⟨"Error".data, "LLM API request failed: ".data ++ natToChars3 s ++ ' ' :: st⟩
  | .abortErr => ⟨"AbortError".data, "The user aborted a request.".data⟩
  | .netErr => ⟨"TypeError".data, "Failed to fetch".data⟩
  | .streamOk _ => ⟨"Error".data, []⟩

/-- The observable outcome of one `sendToLLM` call: fetch attempts
made, inter-attempt backoff delays, success flag and final response,
messages added to history, the texts of the chunks handed to
`sendChunkToAvatar` with their dispatch results, whether the fallback
apology was spoken, and the surfaced error message. -/
structure TurnResult where
  attempts : Nat
  delays : List Nat
  success : Bool
  response : Option (List Char)
  historyAdds : List (MessageSender × List Char)
  chunkTexts : List (List Char)
  chunkResults : List ChunkResult
  fallbackSpoken : Bool
  errorMessage : Option (List Char)
deriving DecidableEq

/-- MAX_RETRY_ATTEMPTS (useLLMChat.ts line 98). -/
def MAX_RETRY_ATTEMPTS : Nat := 3

/-- INITIAL_RETRY_DELAY_MS (useLLMChat.ts line 99). -/
def INITIAL_RETRY_DELAY_MS : Nat := 1000

/-- The post-loop failure path of `sendToLLM` (lines 476 to 507): the
error message is surfaced (with a dedicated text for timeouts) and the
fallback apology is sent to the avatar via `sendMessage`. -/
def turnFailure (a : Nat) (e : JsError) : TurnResult :=
  ⟨a, [], false, none, [], [], [], true,
    some (if e.name = "AbortError".data then
      ("Request timed out after 3 attempts. " ++
        "The LLM backend may be unavailable or overloaded.").data
    else e.message)⟩

/-- The retry loop of `sendToLLM` (`while attempt < 3`), by remaining
iterations.  A successful streaming attempt whose concatenated content
trims to empty throws `LLM returned an empty response`, which flows
through the same catch as the other errors; a non-empty response runs
the chunk relay (dispatching each produced chunk through
`sendChunkToAvatar` with the session identifiers) and appends the
assembled response to history as one AVATAR message.  A caught error is
retried with exponential backoff (1000 ms times 2 to the power
attempt - 1) when `isRetryableError` holds and an attempt remains;
otherwise the loop breaks to the failure path.  The fuel-exhausted arm
is the unreachable `Unknown error: no attempts made` return of the
source. -/
def llmGo (sid tok : Option Nat) (atts : Nat → LLMAttempt)
    (chunkEnv : Nat → Nat → FetchOutcome) : Nat → Nat → TurnResult
  | 0, a => ⟨a - 1, [], false, none, [], [], [], false,
      some "Unknown error: no attempts made".data⟩
  | fuel + 1, a =>
    match atts a with
    | .streamOk contents =>
        if jsTrim contents.flatten = [] then
          (let e : JsError := ⟨"Error".data, "LLM returned an empty response".data⟩
           if isRetryableError e ∧ a < MAX_RETRY_ATTEMPTS then
             let r := llmGo sid tok atts chunkEnv fuel (a + 1)
             { r with delays := INITIAL_RETRY_DELAY_MS * 2 ^ (a - 1) :: r.delays }
           else turnFailure a e)
        else
          ⟨a, [], true, some contents.flatten,
            [(MessageSender.AVATAR, contents.flatten)],
            (relayRun contents).map Prod.fst,
            ((relayRun contents).enum).map (fun p => sendChunkToAvatar sid tok (chunkEnv p.1)),
            false, none⟩
    | .httpErr s st =>
        if isRetryableError (attemptError (.httpErr s st)) ∧ a < MAX_RETRY_ATTEMPTS then
          let r := llmGo sid tok atts chunkEnv fuel (a + 1)
          { r with delays := INITIAL_RETRY_DELAY_MS * 2 ^ (a - 1) :: r.delays }
        else turnFailure a (attemptError (.httpErr s st))
    | .abortErr =>
        if isRetryableError (attemptError .abortErr) ∧ a < MAX_RETRY_ATTEMPTS then
          let r := llmGo sid tok atts chunkEnv fuel (a + 1)
          { r with delays := INITIAL_RETRY_DELAY_MS * 2 ^ (a - 1) :: r.delays }
        else turnFailure a (attemptError .abortErr)
    | .netErr =>
        if isRetryableError (attemptError .netErr) ∧ a < MAX_RETRY_ATTEMPTS then
          let r := llmGo sid tok atts chunkEnv fuel (a + 1)
          { r with delays := INITIAL_RETRY_DELAY_MS * 2 ^ (a - 1) :: r.delays }
        else turnFailure a (attemptError .netErr)

/-- `sendToLLM`: before the loop, the user message is appended to
history as a CLIENT message unless `skipAddingToHistory`; then the
retry loop runs from attempt 1 with 3 iterations available. -/
def sendToLLM (sid tok : Option Nat) (userMessage : List Char) (skipAddingToHistory : Bool)
    (atts : Nat → LLMAttempt) (chunkEnv : Nat → Nat → FetchOutcome) : TurnResult :=
  let r := llmGo sid tok atts chunkEnv MAX_RETRY_ATTEMPTS 1
  { r with historyAdds :=
      (if skipAddingToHistory then [] else [(MessageSender.CLIENT, userMessage)]) ++
        r.historyAdds }

theorem dig10 : ∀ r : Fin 10, (Char.ofNat (48 + (r : Nat))).isDigit = true ∧
    (Char.ofNat (48 + (r : Nat))).toNat = 48 + (r : Nat) := by decide

theorem digitChar_spec (d : Nat) :
    (digitChar d).isDigit = true ∧ (digitChar d).toNat = 48 + d % 10 := by
  have h : d % 10 < 10 := Nat.mod_lt _ (by omega)
  have := dig10 ⟨d % 10, h⟩
  simpa [digitChar] using this

theorem threeDigitsAt_cons_none (a : Char) (l : List Char) (h : a.isDigit = false) :
    threeDigitsAt (a :: l) = none := by
  match l with
  | [] => rfl
  | [_] => rfl
  | b :: c :: t => simp [threeDigitsAt, h]

theorem findThreeDigits_status :
    ∀ (p : List Char), (∀ c ∈ p, c.isDigit = false) →
    ∀ (s : Nat) (rest : List Char), 100 ≤ s → s ≤ 999 →
      findThreeDigits (p ++ natToChars3 s ++ rest) = some s := by
  intro p
  induction p with
  | nil =>
    intro _ s rest h100 h999
    have h1 := digitChar_spec (s / 100)
    have h2 := digitChar_spec (s / 10)
    have h3 := digitChar_spec s
    have hval : ((digitChar (s / 100)).toNat - 48) * 100 +
        ((digitChar (s / 10)).toNat - 48) * 10 + ((digitChar s).toNat - 48) = s := by
      rw [h1.2, h2.2, h3.2]
      omega
    simp only [List.nil_append, natToChars3, List.cons_append]
    simp only [findThreeDigits, threeDigitsAt, h1.1, h2.1, h3.1]
    simp [hval]
  | cons c p ih =>
    intro hp s rest h100 h999
    have hc : c.isDigit = false := hp c (List.mem_cons_self c p)
    have hrest : ∀ x ∈ p, x.isDigit = false := fun x hx => hp x (List.mem_cons_of_mem c hx)
    rw [List.cons_append]
    simp only [findThreeDigits, threeDigitsAt_cons_none c _ hc]
    exact ih hrest s rest h100 h999

theorem prefix_no_digits : ∀ c ∈ "LLM API request failed: ".data, c.isDigit = false := by decide

theorem attemptError_http (s : Nat) (st : List Char) :
    attemptError (.httpErr s st) =
      ⟨"Error".data, "LLM API request failed: ".data ++ natToChars3 s ++ ' ' :: st⟩ := rfl

theorem retryable_http_5xx (s : Nat) (st : List Char) (h5 : 500 ≤ s) (h6 : s < 600) :
    isRetryableError (attemptError (.httpErr s st)) = true := by
  rw [attemptError_http]
  simp only [isRetryableError]
  rw [if_neg (by decide)]
  by_cases hinc : (containsSub "Failed to fetch".data
      ("LLM API request failed: ".data ++ natToChars3 s ++ ' ' :: st) ||
    containsSub "network".data
      ("LLM API request failed: ".data ++ natToChars3 s ++ ' ' :: st)) = true
  · rw [if_pos hinc]
  · rw [if_neg hinc]
    rw [findThreeDigits_status _ prefix_no_digits s (' ' :: st) (by omega) (by omega)]
    simp only [Bool.and_eq_true, decide_eq_true_eq]
    omega

theorem nonretryable_http_4xx (s : Nat) (st : List Char) (h4 : 400 ≤ s) (h5 : s < 500)
    (hf : containsSub "Failed to fetch".data
        ("LLM API request failed: ".data ++ natToChars3 s ++ ' ' :: st) = false)
    (hn : containsSub "network".data
        ("LLM API request failed: ".data ++ natToChars3 s ++ ' ' :: st) = false) :
    isRetryableError (attemptError (.httpErr s st)) = false := by
  rw [attemptError_http]
  simp only [isRetryableError]
  rw [if_neg (by decide)]
  rw [if_neg (by rw [hf, hn]; simp)]
  rw [findThreeDigits_status _ prefix_no_digits s (' ' :: st) (by omega) (by omega)]
  simp only [Bool.and_eq_false_iff, decide_eq_false_iff_not]
  omega

theorem llmGo_attempts_le (sid tok : Option Nat) (atts : Nat → LLMAttempt)
    (chunkEnv : Nat → Nat → FetchOutcome) :
    ∀ (fuel a : Nat), a + fuel ≤ 4 → (llmGo sid tok atts chunkEnv fuel a).attempts ≤ 3 := by
  intro fuel
  induction fuel with
  | zero =>
    intro a h
    simp only [llmGo]
    omega
  | succ fuel ih =>
    intro a h
    simp only [llmGo]
    rcases hat : atts a with ⟨s, st⟩ | _ | _ | contents <;> simp only [hat]
    case streamOk =>
      split
      · split
        · exact ih (a + 1) (by omega)
        · show a ≤ 3
          omega
      · show a ≤ 3
        omega
    all_goals
      split
      · exact ih (a + 1) (by omega)
      · show a ≤ 3
        omega

/-- Claim C5, amended.  First conjunct: an LLM invocation that receives
a 503 response on attempts 1 and 2 and a non-empty successful stream on
attempt 3 makes exactly 3 fetch attempts with inter-attempt delays of
1000 ms and 2000 ms and returns success.  Second conjunct: a 4xx
response on the first attempt is not retried — provided the resulting
error message contains neither `network` nor `Failed to fetch` (the
`includes` checks of `isRetryableError` run before the status
classification, so a pathological status text can defeat the rule; see
the counterexample).  Third conjunct: no input produces more than 3
attempts. -/
theorem llm_retry_policy :
    (∀ (st : List Char) (contents : List (List Char)) (sid tok : Option Nat)
        (um : List Char) (skip : Bool) (chunkEnv : Nat → Nat → FetchOutcome),
      ¬ jsTrim contents.flatten = [] →
      sendToLLM sid tok um skip
          (fun n => if n = 1 then .httpErr 503 st else
            if n = 2 then .httpErr 503 st else .streamOk contents) chunkEnv =
        { attempts := 3,
          delays := [INITIAL_RETRY_DELAY_MS, 2 * INITIAL_RETRY_DELAY_MS],
          success := true,
          response := some contents.flatten,
          historyAdds := (if skip then [] else [(MessageSender.CLIENT, um)]) ++
            [(MessageSender.AVATAR, contents.flatten)],
          chunkTexts := (relayRun contents).map Prod.fst,
          chunkResults := ((relayRun contents).enum).map
            (fun p => sendChunkToAvatar sid tok (chunkEnv p.1)),
          fallbackSpoken := false,
          errorMessage := none }) ∧
    (∀ (s : Nat) (st : List Char) (sid tok : Option Nat) (um : List Char) (skip : Bool)
        (chunkEnv : Nat → Nat → FetchOutcome) (atts : Nat → LLMAttempt),
      400 ≤ s → s < 500 →
      containsSub "Failed to fetch".data
        ("LLM API request failed: ".data ++ natToChars3 s ++ ' ' :: st) = false →
      containsSub "network".data
        ("LLM API request failed: ".data ++ natToChars3 s ++ ' ' :: st) = false →
      atts 1 = .httpErr s st →
      (sendToLLM sid tok um skip atts chunkEnv).attempts = 1 ∧
      (sendToLLM sid tok um skip atts chunkEnv).success = false) ∧
    (∀ (sid tok : Option Nat) (um : List Char) (skip : Bool) (atts : Nat → LLMAttempt)
        (chunkEnv : Nat → Nat → FetchOutcome),
      (sendToLLM sid tok um skip atts chunkEnv).attempts ≤ 3) := by
  refine ⟨?_, ?_, ?_⟩
  · intro st contents sid tok um skip chunkEnv hne
    have hr := retryable_http_5xx 503 st (by omega) (by omega)
    simp [sendToLLM, llmGo, hr, MAX_RETRY_ATTEMPTS, INITIAL_RETRY_DELAY_MS, hne]
  · intro s st sid tok um skip chunkEnv atts h4 h5 hf hn hat
    have hnr := nonretryable_http_4xx s st h4 h5 hf hn
    constructor <;>
      simp [sendToLLM, llmGo, hat, hnr, turnFailure]
  · intro sid tok um skip atts chunkEnv
    have h := llmGo_attempts_le sid tok atts chunkEnv 3 1 (by omega)
    simpa [sendToLLM] using h

/-- Claim C5 as stated is false in its `a 4xx response is never
retried` part: a 404 response whose status text contains the word
`network` produces the error message
`LLM API request failed: 404 network`, which the `includes('network')`
check of `isRetryableError` classifies as retryable before the status
code is ever examined, so a second attempt is made. -/
theorem llm_retry_policy_counterexample :
    ¬ (∀ (s : Nat) (st : List Char) (atts : Nat → LLMAttempt),
        400 ≤ s → s < 500 → atts 1 = .httpErr s st →
        (sendToLLM (some 0) (some 0) [] true atts (fun _ _ => .ok)).attempts = 1) := by
  intro h
  have h2 := h 404 "network".data
    (fun n => if n = 1 then .httpErr 404 "network".data else .streamOk ["Ok.".data])
    (by omega) (by omega) rfl
  exact absurd h2 (by decide)

/-- Concrete instance of the amended claim C5: 503, 503, then a
successful stream of `Ok.` — three attempts, delays 1000 ms and
2000 ms, success. -/
theorem llm_retry_policy_witness :
    sendToLLM (some 1) (some 2) [] true
        (fun n => if n = 1 then .httpErr 503 "Service Unavailable".data else
          if n = 2 then .httpErr 503 "Service Unavailable".data else
            .streamOk ["Ok.".data]) (fun _ _ => .ok) =
      { attempts := 3,
        delays := [INITIAL_RETRY_DELAY_MS, 2 * INITIAL_RETRY_DELAY_MS],
        success := true,
        response := some (["Ok.".data] : List (List Char)).flatten,
        historyAdds := (if true then [] else [(MessageSender.CLIENT, [])]) ++
          [(MessageSender.AVATAR, (["Ok.".data] : List (List Char)).flatten)],
        chunkTexts := (relayRun ["Ok.".data]).map Prod.fst,
        chunkResults := ((relayRun ["Ok.".data]).enum).map
          (fun p => sendChunkToAvatar (some 1) (some 2) ((fun _ _ => FetchOutcome.ok) p.1)),
        fallbackSpoken := false,
        errorMessage := none } :=
  llm_retry_policy.1 "Service Unavailable".data ["Ok.".data] (some 1) (some 2) [] true
    (fun _ _ => .ok) (by decide)

/-- Claim C10: with a null `sessionId` or `sessionToken`, a chunk
dispatch returns immediately — zero fetch attempts, nothing delivered,
no delays, no error — and an LLM turn whose attempts succeed still
completes successfully, still appends the full assembled response to
history as an AVATAR message, while every one of its chunk dispatches
is silently dropped. -/
theorem null_session_chunk_drop :
    (∀ (tok : Option Nat) (outcomes : Nat → FetchOutcome),
      sendChunkToAvatar none tok outcomes = ⟨0, false, []⟩) ∧
    (∀ (sid : Option Nat) (outcomes : Nat → FetchOutcome),
      sendChunkToAvatar sid none outcomes = ⟨0, false, []⟩) ∧
    (∀ (sid tok : Option Nat) (um : List Char) (skip : Bool)
        (contents : List (List Char)) (chunkEnv : Nat → Nat → FetchOutcome),
      (sid = none ∨ tok = none) → ¬ jsTrim contents.flatten = [] →
      (sendToLLM sid tok um skip (fun _ => .streamOk contents) chunkEnv).success = true ∧
      (MessageSender.AVATAR, contents.flatten) ∈
        (sendToLLM sid tok um skip (fun _ => .streamOk contents) chunkEnv).historyAdds ∧
      ∀ cr ∈ (sendToLLM sid tok um skip (fun _ => .streamOk contents) chunkEnv).chunkResults,
        cr = ⟨0, false, []⟩) := by
  refine ⟨?_, ?_, ?_⟩
  · intro tok outcomes
    simp [sendChunkToAvatar]
  · intro sid outcomes
    simp [sendChunkToAvatar]
  · intro sid tok um skip contents chunkEnv hnull hne
    refine ⟨?_, ?_, ?_⟩
    · simp [sendToLLM, llmGo, hne]
    · simp [sendToLLM, llmGo, hne]
    · intro cr hcr
      have hcr2 : cr ∈ ((relayRun contents).enum).map
          (fun p => sendChunkToAvatar sid tok (chunkEnv p.1)) := by
        simpa [sendToLLM, llmGo, hne] using hcr
      obtain ⟨p, hmem, hp⟩ := List.mem_map.mp hcr2
      rw [← hp]
      rcases hnull with h | h <;> subst h <;> simp [sendChunkToAvatar]

/-- Concrete instance of claim C10: null session id, one successful
content fragment `Hi. ` — the turn succeeds, the full text lands in
history, and every chunk dispatch is dropped with zero attempts. -/
theorem null_session_chunk_drop_witness :
    (sendToLLM none (some 3) [] true (fun _ => .streamOk ["Hi. ".data])
        (fun _ _ => .ok)).success = true ∧
    (MessageSender.AVATAR, (["Hi. ".data] : List (List Char)).flatten) ∈
      (sendToLLM none (some 3) [] true (fun _ => .streamOk ["Hi. ".data])
        (fun _ _ => .ok)).historyAdds ∧
    ∀ cr ∈ (sendToLLM none (some 3) [] true (fun _ => .streamOk ["Hi. ".data])
        (fun _ _ => .ok)).chunkResults, cr = ⟨0, false, []⟩ :=
  null_session_chunk_drop.2.2 none (some 3) [] true ["Hi. ".data] (fun _ _ => .ok)
    (Or.inl rfl) (by decide)
